import Mathlib

/-!
# cloudflare-dns-sync — verification of the record reconciliation program

Shallow embedding of `src/main.go` (and the record structures of
`src/DnsRecordResponse.go`).  Network effects are made explicit: every
function that performs an HTTP call takes the outcome of that call
(transport error, or a response with status and body) as an argument and
computes exactly what the Go function computes from it.  Go's
`(value, error)` returns are modelled as pairs whose second component is
`Option String` (`some msg` = non-nil error, `none` = nil error);
`log.Fatal` and a nil-pointer dereference are modelled by dedicated
constructors of `GoResult`.
-/

namespace DnsSync

/-- Constants of src/main.go. -/
def A : String := "A"

def AAAA : String := "AAAA"

def CLOUDFLARE : String := "https://api.cloudflare.com/client/v4/zones/"

/-- The `meta` block of a provider record (src/DnsRecordResponse.go). -/
structure RecordMeta where
  autoAdded : Bool
  managedByApps : Bool
  managedByArgoTunnel : Bool
  source : String
deriving DecidableEq

/-- `DnsRecordResponseEntry` of src/main.go: the provider's full record
representation.  `time.Time` fields are modelled as abstract timestamps
(`Nat`); nothing in the program reads them. -/
structure DnsRecordResponseEntry where
  id : String
  zoneId : String
  zoneName : String
  name : String
  type : String
  content : String
  proxiable : Bool
  proxied : Bool
  ttl : Int
  locked : Bool
  meta : RecordMeta
  createdOn : Nat
  modifiedOn : Nat
deriving DecidableEq

/-- `DnsRecordsResponse` of src/main.go: the decoded list-records body. -/
structure DnsRecordsResponse where
  result : List DnsRecordResponseEntry
deriving DecidableEq

/-- `DnsRecord` of src/main.go: the reduced projection the reconciler uses. -/
structure DnsRecord where
  id : String
  zoneId : String
  type : String
  name : String
  content : String
deriving DecidableEq

/-- `CreateDnsRecordFrom` of src/main.go: projects a provider entry to the
five-field `DnsRecord`.  The Go function heap-allocates a fresh struct; in
the embedding that is a fresh value. -/
def CreateDnsRecordFrom (entry : DnsRecordResponseEntry) : DnsRecord :=
  { id := entry.id
    zoneId := entry.zoneId
    type := entry.type
    name := entry.name
    content := entry.content }

/-- `contains` of src/main.go: linear scan with `==`. -/
def contains (list : List String) (value : String) : Bool :=
  match list with
  | [] => false
  | item :: rest => if item == value then true else contains rest value

/-- Lookup in a Go `map[string]string`, modelled as an association list:
`mapLookup m k = some v` plays `v, ok := m[k]` with `ok = true`. -/
def mapLookup (m : List (String × String)) (k : String) : Option String :=
  match m with
  | [] => none
  | (k', v) :: rest => if k' == k then some v else mapLookup rest k

/-- The reconciliation decision of main's record loop (src/main.go lines
91-111): project each entry with `CreateDnsRecordFrom`, skip it unless its
name is in `dnsNames`, skip it unless `ipAddresses` has an entry for its
type, skip it when that entry already equals its content, and otherwise
emit the projected record with its content overwritten by the map entry —
exactly the value main passes to `updateDnsRecord`.  (The Go code re-reads
`ipAddresses[dnsRecord.Type]` for the overwrite; it is the same value the
comparison bound.) -/
def reconcile (entries : List DnsRecordResponseEntry)
    (ipAddresses : List (String × String)) (dnsNames : List String) :
    List DnsRecord :=
  match entries with
  | [] => []
  | entry :: rest =>
    let dnsRecord := CreateDnsRecordFrom entry
    if !(contains dnsNames dnsRecord.name) then
      reconcile rest ipAddresses dnsNames
    else
      match mapLookup ipAddresses dnsRecord.type with
      | none => reconcile rest ipAddresses dnsNames
      | some currentContent =>
        if currentContent == dnsRecord.content then
          reconcile rest ipAddresses dnsNames
        else
          { dnsRecord with content := currentContent } ::
            reconcile rest ipAddresses dnsNames

/-- Specification-side eligibility predicate, for stating properties of
`reconcile`: the record's name is in the sync set, the address map has an
entry for its type, and that entry differs from its content. -/
def eligible (ipAddresses : List (String × String)) (dnsNames : List String)
    (entry : DnsRecordResponseEntry) : Bool :=
  contains dnsNames entry.name &&
    match mapLookup ipAddresses entry.type with
    | some addr => addr != entry.content
    | none => false

/-- Specification-side view of the instruction emitted for an eligible
entry: the projected record with content set to the address for its type. -/
def plannedUpdate (ipAddresses : List (String × String))
    (entry : DnsRecordResponseEntry) : DnsRecord :=
  { CreateDnsRecordFrom entry with
    content := (mapLookup ipAddresses entry.type).getD "" }

theorem reconcile_cons (entry : DnsRecordResponseEntry)
    (rest : List DnsRecordResponseEntry)
    (ips : List (String × String)) (names : List String) :
    reconcile (entry :: rest) ips names =
      (if eligible ips names entry then [plannedUpdate ips entry] else []) ++
        reconcile rest ips names := by
  simp only [reconcile, eligible, plannedUpdate, CreateDnsRecordFrom]
  cases hc : contains names entry.name with
  | false => simp [hc]
  | true =>
    cases hm : mapLookup ips entry.type with
    | none => simp [hc, hm]
    | some addr =>
      by_cases he : addr = entry.content
      · simp [hc, hm, he]
      · simp [hc, hm, he, bne_iff_ne]

/-- Shared characterization: `reconcile` is the map of `plannedUpdate` over
the eligible entries, in input order. -/
theorem reconcile_eq_filter_map (entries : List DnsRecordResponseEntry)
    (ips : List (String × String)) (names : List String) :
    reconcile entries ips names =
      (entries.filter (eligible ips names)).map (plannedUpdate ips) := by
  induction entries with
  | nil => rfl
  | cons entry rest ih =>
    rw [reconcile_cons, ih, List.filter_cons]
    cases h : eligible ips names entry <;> simp [h]

/-- C1.  Reconciliation emits an instruction for a record iff the record's
name is in the sync-name set, the address map has an entry for the record's
type and the record's content differs from that entry; each emitted
instruction is the source record's projection (same id, zone id, type,
name) with the address map entry for the record's type as its content —
stated as: the emitted sequence is exactly the `plannedUpdate` image of the
eligible entries, and on every emitted record the address map entry at the
record's type is the record's new content. -/
theorem reconcile_emits_iff_eligible (entries : List DnsRecordResponseEntry)
    (ips : List (String × String)) (names : List String) :
    reconcile entries ips names =
        (entries.filter (eligible ips names)).map (plannedUpdate ips) ∧
      (reconcile entries ips names).map (fun r => mapLookup ips r.type) =
        (reconcile entries ips names).map (fun r => some r.content) := by
  refine ⟨reconcile_eq_filter_map entries ips names, ?_⟩
  rw [reconcile_eq_filter_map, List.map_map, List.map_map]
  apply List.map_congr_left
  intro entry hmem
  have he : eligible ips names entry = true := List.of_mem_filter hmem
  simp only [eligible, Bool.and_eq_true] at he
  obtain ⟨-, hm⟩ := he
  cases hml : mapLookup ips entry.type with
  | none => rw [hml] at hm; simp at hm
  | some addr =>
    simp [Function.comp, plannedUpdate, CreateDnsRecordFrom, hml]

/-- The record state after applying reconcile's own instructions: every
entry for which an instruction was emitted gets its content set to that
instruction's new content (the address map entry for its type); every
other entry is untouched. -/
def applyInstructions (ipAddresses : List (String × String))
    (dnsNames : List String) (entries : List DnsRecordResponseEntry) :
    List DnsRecordResponseEntry :=
  entries.map fun entry =>
    if eligible ipAddresses dnsNames entry then
      { entry with content := (mapLookup ipAddresses entry.type).getD "" }
    else entry

theorem eligible_applyInstructions (ips : List (String × String))
    (names : List String) (entry : DnsRecordResponseEntry) :
    eligible ips names
      (if eligible ips names entry then
        { entry with content := (mapLookup ips entry.type).getD "" }
      else entry) = false := by
  cases h : eligible ips names entry with
  | false => simpa using h
  | true =>
    simp only [if_pos rfl, h]
    simp only [eligible, Bool.and_eq_true] at h
    obtain ⟨-, hm⟩ := h
    cases hml : mapLookup ips entry.type with
    | none => rw [hml] at hm; simp at hm
    | some addr => simp [eligible, hml]

/-- C6.  Idempotence: records whose content already equals the address map
entry for their type produce no instruction, and re-running `reconcile` on
the state produced by applying its own instructions yields the empty
instruction sequence. -/
theorem reconcile_idempotent (entries : List DnsRecordResponseEntry)
    (ips : List (String × String)) (names : List String) :
    reconcile
        (entries.filter fun e => mapLookup ips e.type == some e.content)
        ips names = [] ∧
      reconcile (applyInstructions ips names entries) ips names = [] := by
  constructor
  · rw [reconcile_eq_filter_map, List.filter_filter]
    have : ∀ e ∈ entries,
        ¬(eligible ips names e && (mapLookup ips e.type == some e.content))
          = true := by
      intro e _
      simp only [Bool.and_eq_true, beq_iff_eq, eligible, not_and]
      rintro ⟨-, hm⟩ hc
      rw [hc] at hm
      simp at hm
    rw [List.filter_eq_nil_iff.mpr (by simpa using this)]
    rfl
  · rw [reconcile_eq_filter_map]
    have : (applyInstructions ips names entries).filter
        (eligible ips names) = [] := by
      rw [List.filter_eq_nil_iff]
      intro e he
      simp only [applyInstructions, List.mem_map] at he
      obtain ⟨entry, -, rfl⟩ := he
      simp [eligible_applyInstructions]
    rw [this]
    rfl

/-- C7.  Order and duplicates: reconciliation processes the input sequence
pointwise and in order (it distributes over append), and two identical
qualifying records yield two identical instructions, adjacent and in input
position. -/
theorem reconcile_order_dup (front back : List DnsRecordResponseEntry)
    (ips : List (String × String)) (names : List String)
    (entry : DnsRecordResponseEntry)
    (h : eligible ips names entry = true) :
    reconcile (front ++ back) ips names =
        reconcile front ips names ++ reconcile back ips names ∧
      reconcile (front ++ entry :: entry :: back) ips names =
        reconcile front ips names ++ plannedUpdate ips entry ::
          plannedUpdate ips entry :: reconcile back ips names := by
  constructor
  · simp [reconcile_eq_filter_map]
  · simp [reconcile_eq_filter_map, List.filter_append, List.filter_cons, h]

/-- Concrete provider entry used by witnesses: an A record for
home.example.com currently pointing at 1.2.3.4. -/
def entryHome : DnsRecordResponseEntry :=
  { id := "372e67954025e0ba6aaa6d586b9e0b59"
    zoneId := "023e105f4ecef8ad9ca31a8372d0c353"
    zoneName := "example.com"
    name := "home.example.com"
    type := "A"
    content := "1.2.3.4"
    proxiable := true
    proxied := false
    ttl := 1
    locked := false
    meta := { autoAdded := false, managedByApps := false,
              managedByArgoTunnel := false, source := "primary" }
    createdOn := 0
    modifiedOn := 0 }

/-- Concrete provider entry used by witnesses: a record whose name is not
in the sync set. -/
def entryOther : DnsRecordResponseEntry :=
  { entryHome with id := "5efa8cf7b5ca391492b75b1e0f7b3aaa"
                   name := "other.example.com" }

/-- Concrete address map used by witnesses. -/
def ipsSample : List (String × String) :=
  [("A", "5.6.7.8"), ("AAAA", "2001:db8::1")]

/-- Concrete sync-name list used by witnesses. -/
def namesSample : List String :=
  ["home.example.com", "www.example.com"]

theorem reconcile_order_dup_witness :
    eligible ipsSample namesSample entryHome = true ∧
      (reconcile ([entryOther] ++ [entryHome]) ipsSample namesSample =
          reconcile [entryOther] ipsSample namesSample ++
            reconcile [entryHome] ipsSample namesSample ∧
        reconcile ([entryOther] ++ entryHome :: entryHome :: [entryHome])
            ipsSample namesSample =
          reconcile [entryOther] ipsSample namesSample ++
            plannedUpdate ipsSample entryHome ::
              plannedUpdate ipsSample entryHome ::
                reconcile [entryHome] ipsSample namesSample) :=
  ⟨by decide,
   reconcile_order_dup [entryOther] [entryHome] ipsSample namesSample
     entryHome (by decide)⟩

/-- Main's record loop with the entry stream made explicit (src/main.go
lines 91-111): each iteration builds a fresh `DnsRecord` via
`CreateDnsRecordFrom`, the content overwrite hits only that copy, and the
entry itself — a value copy the `range` loop reads — is passed on as read.
First component: the records handed to `updateDnsRecord`; second: the
fetched entries as they stand after the pass. -/
def reconcilePass (ipAddresses : List (String × String))
    (dnsNames : List String) :
    List DnsRecordResponseEntry → List DnsRecord × List DnsRecordResponseEntry
  | [] => ([], [])
  | entry :: rest =>
    let dnsRecord := CreateDnsRecordFrom entry
    let tail := reconcilePass ipAddresses dnsNames rest
    if !(contains dnsNames dnsRecord.name) then
      (tail.1, entry :: tail.2)
    else
      match mapLookup ipAddresses dnsRecord.type with
      | none => (tail.1, entry :: tail.2)
      | some currentContent =>
        if currentContent == dnsRecord.content then
          (tail.1, entry :: tail.2)
        else
          ({ dnsRecord with content := currentContent } :: tail.1,
            entry :: tail.2)

/-- C9.  Reconciliation never mutates its input: the pass that computes the
very instructions `reconcile` computes returns the fetched entry sequence
unchanged, and the projection copies exactly the five fields id, zone id,
type, name and content of each entry into a fresh `DnsRecord`. -/
theorem reconcile_preserves_input (entries : List DnsRecordResponseEntry)
    (ips : List (String × String)) (names : List String) :
    (reconcilePass ips names entries).1 = reconcile entries ips names ∧
      (reconcilePass ips names entries).2 = entries ∧
      entries.map CreateDnsRecordFrom =
        entries.map fun e =>
          { id := e.id, zoneId := e.zoneId, type := e.type,
            name := e.name, content := e.content } := by
  refine ⟨?_, ?_, by simp [CreateDnsRecordFrom]⟩
  · induction entries with
    | nil => rfl
    | cons entry rest ih =>
      simp only [reconcilePass, reconcile]
      cases hc : contains names (CreateDnsRecordFrom entry).name with
      | false => simpa [hc] using ih
      | true =>
        cases hm : mapLookup ips (CreateDnsRecordFrom entry).type with
        | none => simpa [hc, hm] using ih
        | some addr =>
          by_cases he : addr == (CreateDnsRecordFrom entry).content <;>
            simp [hc, hm, he, ih]
  · induction entries with
    | nil => rfl
    | cons entry rest ih =>
      simp only [reconcilePass]
      cases hc : contains names (CreateDnsRecordFrom entry).name with
      | false => simpa [hc] using ih
      | true =>
        cases hm : mapLookup ips (CreateDnsRecordFrom entry).type with
        | none => simpa [hc, hm] using ih
        | some addr =>
          by_cases he : addr == (CreateDnsRecordFrom entry).content <;>
            simp [hc, hm, he, ih]

/-- How a Go function that makes an HTTP call can leave its frame: return
normally, terminate the process via `log.Fatal`, or crash on a nil-pointer
dereference. -/
inductive GoResult (α : Type) where
  | ok (value : α)
  | fatal (msg : String)
  | nilDeref
deriving DecidableEq

/-- Outcome of an `http.Get` in `getExternalIpAddress`: either the call's
non-nil error, or a response with its status code and what `ReadAll` of its
body yields (`Except.error` = read failure). -/
inductive HttpGetOutcome where
  | err (msg : String)
  | resp (statusCode : Nat) (readResult : Except String String)

/-- `unicode.IsSpace` restricted to the characters an address-echo body can
realistically carry (ASCII whitespace plus NEL and NBSP); the exotic
Unicode space classes are outside the model. -/
def isSpaceGo (c : Char) : Bool :=
  c == ' ' || c == '\t' || c == '\n' || c == '\x0b' || c == '\x0c' ||
    c == '\r' || c == '\u0085' || c == ' '

def dropLeadingSpace : List Char → List Char
  | [] => []
  | c :: cs => if isSpaceGo c then dropLeadingSpace cs else c :: cs

/-- `strings.TrimSpace`: strip leading and trailing whitespace. -/
def trimSpace (s : String) : String :=
  ⟨dropLeadingSpace ((dropLeadingSpace s.data.reverse).reverse)⟩

/-- `getExternalIpAddress` of src/main.go (lines 176-197).  A transport
error is returned as-is; on a 200 the read body is trimmed and returned
with a nil error (a read failure dies via `log.Fatal`); on any other
status the function executes `return "", err` — and `err`, set by the
successful `http.Get`, is nil at that point, so the caller sees no error. -/
def getExternalIpAddress (outcome : HttpGetOutcome) :
    GoResult (String × Option String) :=
  match outcome with
  | .err msg => .ok ("", some msg)
  | .resp statusCode readResult =>
    if statusCode == 200 then
      match readResult with
      | .error msg => .fatal msg
      | .ok body => .ok (trimSpace body, none)
    else
      .ok ("", none)

/-- `getExternalIpAddresses` of src/main.go (lines 159-174): ipv4 lookup,
then ipv6 lookup, each non-nil error returned with a nil map; otherwise
the two-entry map. -/
def getExternalIpAddresses (outcome4 outcome6 : HttpGetOutcome) :
    GoResult (Option (List (String × String)) × Option String) :=
  match getExternalIpAddress outcome4 with
  | .fatal msg => .fatal msg
  | .nilDeref => .nilDeref
  | .ok (ipv4, err4) =>
    match err4 with
    | some e => .ok (none, some e)
    | none =>
      match getExternalIpAddress outcome6 with
      | .fatal msg => .fatal msg
      | .nilDeref => .nilDeref
      | .ok (ipv6, err6) =>
        match err6 with
        | some e => .ok (none, some e)
        | none => .ok (some [(A, ipv4), (AAAA, ipv6)], none)

/-- C2 (code bug, evaluated at the failing input).  An address-echo lookup
that answers HTTP 500 does not produce an error: `getExternalIpAddress`
returns the empty address with a nil error, because the final
`return "", err` returns the nil `err` of the successful `http.Get`.  A
transport error, by contrast, is propagated as the claim says. -/
theorem lookup_non_success_returns_nil_error :
    getExternalIpAddress (.resp 500 (.ok "server error")) =
        .ok ("", none) ∧
      getExternalIpAddress (.err "dial tcp: network unreachable") =
        .ok ("", some "dial tcp: network unreachable") := by
  constructor <;> rfl

/-- C4 (code bug, evaluated at the failing input).  When the ipv4 lookup
succeeds with 200 and the ipv6 lookup answers HTTP 500, `resolve()` does
not abort: it returns the full two-entry map with the AAAA entry set to
`""` — a partial result in all but shape — and `""` is not the trimmed
ipv6 response body. -/
theorem resolve_returns_map_despite_failed_lookup :
    getExternalIpAddresses (.resp 200 (.ok "1.2.3.4\n"))
          (.resp 500 (.ok "oops")) =
        .ok (some [(A, "1.2.3.4"), (AAAA, "")], none) ∧
      trimSpace "oops" ≠ "" := by
  constructor
  · rfl
  · decide

/-- Outcome of the list-records request in `getDnsRecords`: `NewRequest`
failure, `client.Do` failure (the returned response is nil), or a response
whose status code and whose JSON decode of the read body are given
(`Except.error` = `json.Unmarshal` failure; a `ReadAll` error is dropped by
the code — its `err` is shadowed — so only the decode of whatever body was
read matters). -/
inductive FetchOutcome where
  | newRequestErr (msg : String)
  | doErr (msg : String)
  | resp (statusCode : Nat) (decodeResult : Except String DnsRecordsResponse)

/-- `getDnsRecords` of src/main.go (lines 199-228).  The error of
`client.Do` is never checked: when the transport fails the response is nil
and the deferred close's argument `response.Body` dereferences it — a
crash, not a returned error.  The status code is never inspected; the body
is JSON-decoded and the `result` list returned verbatim. -/
def getDnsRecords (outcome : FetchOutcome) :
    GoResult (Option (List DnsRecordResponseEntry) × Option String) :=
  match outcome with
  | .newRequestErr msg => .ok (none, some msg)
  | .doErr _ => .nilDeref
  | .resp _ decodeResult =>
    match decodeResult with
    | .error msg => .ok (none, some msg)
    | .ok body => .ok (some body.result, none)

/-- C3 (code bug, evaluated at the failing input).  A transport failure of
the record-list request crashes `getDnsRecords` on a nil dereference
instead of returning a FetchError; the decode-failure and success paths do
behave as the claim says (error returned; the provider's `result` list
returned verbatim, unfiltered, in order). -/
theorem fetch_transport_failure_crashes :
    getDnsRecords (.doErr "connection refused") = .nilDeref ∧
      getDnsRecords (.resp 200 (.error "invalid character")) =
        .ok (none, some "invalid character") ∧
      getDnsRecords (.resp 200 (.ok ⟨[entryOther, entryHome, entryHome]⟩)) =
        .ok (some [entryOther, entryHome, entryHome], none) := by
  refine ⟨rfl, rfl, rfl⟩

/-- One character of Go's `encoding/json` string encoder (default,
HTML-escaping, as `json.Marshal` uses). -/
def jsonEscapeChar (c : Char) : String :=
  if c == '"' then "\\\""
  else if c == '\\' then "\\\\"
  else if c == '\n' then "\\n"
  else if c == '\r' then "\\r"
  else if c == '\t' then "\\t"
  else if c == '<' then "\\u003c"
  else if c == '>' then "\\u003e"
  else if c == '&' then "\\u0026"
  else if c.toNat < 32 then
    "\\u00" ++ String.singleton (Nat.digitChar (c.toNat / 16)) ++
      String.singleton (Nat.digitChar (c.toNat % 16))
  else String.singleton c

/-- `json.Marshal(map[string]string{"content": content})`: the request
payload `updateDnsRecord` sends (this marshal never fails). -/
def marshalContentPayload (content : String) : String :=
  "\x7b\"content\":\"" ++ String.join (content.data.map jsonEscapeChar) ++
    "\"\x7d"

/-- Outcome of the PATCH in `updateDnsRecord`: `NewRequest` failure,
`client.Do` failure, `ReadAll` failure, or a response with its status code,
its status line (Go's `response.Status`, e.g. "403 Forbidden") and body. -/
inductive UpdateOutcome where
  | newRequestErr (msg : String)
  | doErr (msg : String)
  | readErr (msg : String)
  | resp (statusCode : Nat) (status : String) (body : String)
deriving DecidableEq

/-- `updateDnsRecord` of src/main.go (lines 115-157): marshal the payload,
PATCH `CLOUDFLARE + record.ZoneId + "/dns_records/" + record.Id`; each
request/transport/read error is returned; a non-200 status becomes the
composed error carrying payload, status line and body; a 200 returns nil. -/
def updateDnsRecord (record : DnsRecord) (outcome : UpdateOutcome) :
    Option String :=
  let data := marshalContentPayload record.content
  match outcome with
  | .newRequestErr msg => some msg
  | .doErr msg => some msg
  | .readErr msg => some msg
  | .resp statusCode status body =>
    if statusCode != 200 then
      some ("Could not update DNS record " ++ data ++ "\n" ++
        "Response status: " ++ status ++ "\n" ++ body)
    else
      none

/-- C5.  Once a response arrives, `updateDnsRecord` fails iff its status
code is not 200, and the failure's error is exactly the message composed
of the raw request payload, the response status line and the full response
body; a 200 yields success (`none`). -/
theorem updateDnsRecord_fails_iff_non_200 (record : DnsRecord)
    (statusCode : Nat) (status body : String) :
    (updateDnsRecord record (.resp statusCode status body) = none ↔
        statusCode = 200) ∧
      updateDnsRecord record (.resp statusCode status body) =
        (if statusCode = 200 then none
         else some ("Could not update DNS record " ++
           marshalContentPayload record.content ++ "\n" ++
           "Response status: " ++ status ++ "\n" ++ body)) := by
  by_cases h : statusCode = 200 <;>
    simp [updateDnsRecord, h]

/-- Main's record loop with its update calls (src/main.go lines 91-111):
the same decision as `reconcile`, but each emitted record is immediately
sent to `updateDnsRecord`; `outcomes k` is what the k-th issued PATCH
request comes back with.  A non-nil error makes main `log.Fatal`, so the
loop stops: the function returns the records for which a request was
issued, in order, and the fatal error if one occurred. -/
def runUpdates (outcomes : Nat → UpdateOutcome)
    (ipAddresses : List (String × String)) (dnsNames : List String) :
    List DnsRecordResponseEntry → Nat → List DnsRecord × Option String
  | [], _ => ([], none)
  | entry :: rest, k =>
    let dnsRecord := CreateDnsRecordFrom entry
    if !(contains dnsNames dnsRecord.name) then
      runUpdates outcomes ipAddresses dnsNames rest k
    else
      match mapLookup ipAddresses dnsRecord.type with
      | none => runUpdates outcomes ipAddresses dnsNames rest k
      | some currentContent =>
        if currentContent == dnsRecord.content then
          runUpdates outcomes ipAddresses dnsNames rest k
        else
          let updated := { dnsRecord with content := currentContent }
          match updateDnsRecord updated (outcomes k) with
          | some e => ([updated], some e)
          | none =>
            let tail := runUpdates outcomes ipAddresses dnsNames rest (k + 1)
            (updated :: tail.1, tail.2)

/-- The update phase on an already-computed instruction list: issue each
update in order, stop at the first non-nil error. -/
def processPlans (outcomes : Nat → UpdateOutcome) :
    List DnsRecord → Nat → List DnsRecord × Option String
  | [], _ => ([], none)
  | plan :: rest, k =>
    match updateDnsRecord plan (outcomes k) with
    | some e => ([plan], some e)
    | none =>
      let tail := processPlans outcomes rest (k + 1)
      (plan :: tail.1, tail.2)

theorem runUpdates_eq_processPlans (outcomes : Nat → UpdateOutcome)
    (ips : List (String × String)) (names : List String) :
    ∀ (entries : List DnsRecordResponseEntry) (k : Nat),
      runUpdates outcomes ips names entries k =
        processPlans outcomes (reconcile entries ips names) k := by
  intro entries
  induction entries with
  | nil => intro k; rfl
  | cons entry rest ih =>
    intro k
    simp only [runUpdates, reconcile]
    cases hc : contains names (CreateDnsRecordFrom entry).name with
    | false => simp [hc, ih]
    | true =>
      cases hm : mapLookup ips (CreateDnsRecordFrom entry).type with
      | none => simp [hc, hm, ih]
      | some addr =>
        cases he : addr == (CreateDnsRecordFrom entry).content with
        | true => simp [hc, hm, he, ih]
        | false =>
          simp only [hc, hm, he, Bool.not_true, Bool.false_eq_true,
            if_false, if_true]
          cases hu : updateDnsRecord
              { CreateDnsRecordFrom entry with content := addr }
              (outcomes k) with
          | some e => simp [processPlans, hu]
          | none => simp [processPlans, hu, ih]

theorem processPlans_abort (outcomes : Nat → UpdateOutcome) :
    ∀ (plans : List DnsRecord) (k i : Nat),
      (∀ j, j < i → ∀ r, plans[j]? = some r →
        updateDnsRecord r (outcomes (k + j)) = none) →
      (∀ r, plans[i]? = some r →
        updateDnsRecord r (outcomes (k + i)) ≠ none) →
      i < plans.length →
      (processPlans outcomes plans k).1 = plans.take (i + 1) ∧
        (processPlans outcomes plans k).2 ≠ none := by
  intro plans
  induction plans with
  | nil => intro k i _ _ hlen; simp at hlen
  | cons plan rest ih =>
    intro k i hbefore hfail hlen
    cases i with
    | zero =>
      have h0 := hfail plan (by simp)
      rw [Nat.add_zero] at h0
      cases hu : updateDnsRecord plan (outcomes k) with
      | none => exact absurd hu h0
      | some e => simp [processPlans, hu]
    | succ i' =>
      have h0 : updateDnsRecord plan (outcomes k) = none := by
        have := hbefore 0 (Nat.succ_pos i') plan (by simp)
        rwa [Nat.add_zero] at this
      have tail := ih (k + 1) i'
        (by
          intro j hj r hr
          have := hbefore (j + 1) (Nat.succ_lt_succ hj) r (by simpa using hr)
          rwa [show k + (j + 1) = k + 1 + j by omega] at this)
        (by
          intro r hr
          have := hfail r (by simpa using hr)
          rwa [show k + (i' + 1) = k + 1 + i' by omega] at this)
        (by simpa using Nat.lt_of_succ_lt_succ hlen)
      simp only [processPlans, h0]
      exact ⟨by simp [tail.1], by simpa using tail.2⟩

/-- C8.  A run never issues an update request after a failed one: if the
updates of the first i qualifying records succeed and the update of the
i-th qualifying record fails, the loop issues requests for exactly the
first i+1 instructions of the reconciliation — none for any later record
— and main dies on the error. -/
theorem run_aborts_after_failed_update
    (entries : List DnsRecordResponseEntry) (ips : List (String × String))
    (names : List String) (outcomes : Nat → UpdateOutcome) (i : Nat)
    (hbefore : ∀ j, j < i → ∀ r, (reconcile entries ips names)[j]? = some r →
      updateDnsRecord r (outcomes j) = none)
    (hfail : ∀ r, (reconcile entries ips names)[i]? = some r →
      updateDnsRecord r (outcomes i) ≠ none)
    (hlen : i < (reconcile entries ips names).length) :
    (runUpdates outcomes ips names entries 0).1 =
        (reconcile entries ips names).take (i + 1) ∧
      (runUpdates outcomes ips names entries 0).2 ≠ none := by
  rw [runUpdates_eq_processPlans]
  exact processPlans_abort outcomes (reconcile entries ips names) 0 i
    (by simpa using hbefore) (by simpa using hfail) hlen

/-- Update outcome stream used by the C8 witness: every PATCH comes back
403 Forbidden. -/
def outcomesFail : Nat → UpdateOutcome :=
  fun _ => .resp 403 "403 Forbidden" "\x7b\"error\":\"forbidden\"\x7d"

theorem run_aborts_after_failed_update_witness :
    0 < (reconcile [entryHome, entryHome] ipsSample namesSample).length ∧
      ((runUpdates outcomesFail ipsSample namesSample
            [entryHome, entryHome] 0).1 =
          (reconcile [entryHome, entryHome] ipsSample namesSample).take 1 ∧
        (runUpdates outcomesFail ipsSample namesSample
            [entryHome, entryHome] 0).2 ≠ none) :=
  ⟨by decide,
   run_aborts_after_failed_update [entryHome, entryHome] ipsSample
     namesSample outcomesFail 0
     (fun j hj => absurd hj (Nat.not_lt_zero j))
     (by
       intro r hr
       have hr' : some (plannedUpdate ipsSample entryHome) = some r := by
         rw [← hr]; rfl
       cases Option.some.inj hr'
       decide)
     (by decide)⟩

/-- Field splitter of `strings.Split(raw, ",")`: fields between commas, an
empty field for each adjacent, leading or trailing comma, `[""]` for the
empty string — Go's semantics for a one-character separator. -/
def splitFields : List Char → List (List Char)
  | [] => [[]]
  | c :: cs =>
    if c == ',' then [] :: splitFields cs
    else
      match splitFields cs with
      | [] => [[c]]
      | field :: rest => (c :: field) :: rest

/-- `strings.Split(*dnsNamesRawInput, ",")` of src/main.go line 80. -/
def splitNames (raw : String) : List String :=
  (splitFields raw.data).map fun cs => ⟨cs⟩

/-- The pre-flight check of main (src/main.go lines 74-78): fatal iff one
of the four raw argument strings is empty.  It inspects the raw names
string, never the parsed list. -/
def missingArguments (zoneId email key namesRawInput : String) : Bool :=
  zoneId == "" || email == "" || key == "" || namesRawInput == ""

/-- Provider entry whose name field is the empty string. -/
def entryEmptyName : DnsRecordResponseEntry :=
  { entryHome with id := "9a7806061c88ada191ed06f989cc3dac"
                   name := "" }

/-- C10.  A names input with a trailing comma is non-empty, so it passes
the pre-flight check, yet its parsed sync-name list contains the empty
string; a fetched record whose name is empty then matches it exactly and
receives an update instruction. -/
theorem trailing_comma_syncs_empty_name :
    missingArguments "z1" "user@example.com" "key1"
        "home.example.com," = false ∧
      splitNames "home.example.com," = ["home.example.com", ""] ∧
      contains (splitNames "home.example.com,") "" = true ∧
      reconcile [entryEmptyName] ipsSample (splitNames "home.example.com,") =
        [{ id := entryEmptyName.id, zoneId := entryEmptyName.zoneId,
           type := "A", name := "", content := "5.6.7.8" }] := by
  refine ⟨rfl, by decide, by decide, by decide⟩

end DnsSync
